import Mathlib

/-!
# User service of the movie-ticket booking system

A shallow embedding of `services/user-service` (Go):

* `models/user.go`        : namespace `Models`
* `repository/user_repository.go` : namespace `Repository` (over a small model of a
  MongoDB collection, namespace `Mongo`)
* `services/user_service.go`     : namespace `Services` (over a small model of the
  token library `github.com/golang-jwt/jwt/v5`, namespace `Jwt`)

Conventions of the embedding.

* A Go `(value, error)` result is an `Except`; a Go `error` result is an `Option`.
* Every reading of the wall clock (`time.Now()`) is an explicit argument, one per call
  site, in the order in which the source performs the readings.
* The environment variable `JWT_SECRET` is an explicit argument.
* State of the store is passed explicitly: a method of the repository that writes takes
  the state and returns the new one.
-/

set_option autoImplicit false

/-! ## Time -/

/-- Wall-clock instants (Go `time.Time`), in nanoseconds since the Unix epoch. -/
abbrev Time := Nat

/-- Go `time.Second`, as a number of nanoseconds. -/
def second : Nat := 1000000000

/-- Go `time.Hour`, as a number of nanoseconds. -/
def hour : Nat := 3600 * second

/-! ## Errors -/

/-- Errors reported by the store driver. -/
inductive StoreError where
  /-- The driver value `mongo.ErrNoDocuments`. -/
  | noDocuments
  /-- The call did not complete in time. -/
  | timeout
  /-- The server could not be reached. -/
  | network
  /-- A stored field does not have the type of the struct field it is decoded into. -/
  | decode (field : String)
deriving DecidableEq, Repr

/-- The individual checks of the claims validator of the token library. -/
inductive ClaimError where
  /-- The library value `ErrTokenExpired`. -/
  | expired
  /-- The library value `ErrTokenNotValidYet`. -/
  | notValidYet
deriving DecidableEq, Repr

/-- Errors of the token library. -/
inductive JwtError where
  /-- The library value `ErrTokenMalformed`. -/
  | malformed
  /-- The library value `ErrTokenUnverifiable`, with its message and the error of the key function. -/
  | unverifiable (reason : String) (cause : Option String)
  /-- The library value `ErrTokenSignatureInvalid`. -/
  | signatureInvalid
  /-- The library value `ErrTokenInvalidClaims`, joined with the failed checks. -/
  | invalidClaims (errs : List ClaimError)
  /-- The library value `ErrInvalidKeyType`. -/
  | invalidKeyType
deriving DecidableEq, Repr

/-- Go `error` values met in the service. -/
inductive Err where
  /-- The value of `errors.New(msg)`. -/
  | text (msg : String)
  /-- An error of the token library. -/
  | jwt (e : JwtError)
  /-- An error of the store driver. -/
  | store (e : StoreError)
deriving DecidableEq, Repr

/-! ## Identifiers -/

/-- Go `primitive.ObjectID`: twelve bytes, read as one big-endian number. -/
abbrev ObjectID := Fin (2 ^ 96)

/-- Go `primitive.NilObjectID`. -/
def NilObjectID : ObjectID := ⟨0, by norm_num⟩

/-- Go `ObjectID.Hex`: the 24 lowercase hexadecimal digits of the identifier. -/
def ObjectID.Hex (id : ObjectID) : String :=
  String.mk ((List.range 24).map fun i => Nat.digitChar (id.val / 16 ^ (23 - i) % 16))

namespace Models

/-- Go `models.User`. -/
structure User where
  ID : ObjectID
  Email : String
  Password : String
  FirstName : String
  LastName : String
  PhoneNumber : String
  DateOfBirth : Option Time
  IsActive : Bool
  CreatedAt : Time
  UpdatedAt : Time
deriving DecidableEq, Repr

/-- Go `models.RegisterRequest`. -/
structure RegisterRequest where
  Email : String
  Password : String
  FirstName : String
  LastName : String
deriving DecidableEq, Repr

/-- Go `models.LoginResponse`; `Tok` is the type of token strings. -/
structure LoginResponse (Tok : Type) where
  Token : Tok
  User : User

end Models

/-! ## Field maps and the document store -/

namespace Bson

/-- Dynamically typed values of a field map (the empty-interface values of a Go map from strings). -/
inductive Value where
  | str (s : String)
  | bool (b : Bool)
  | time (t : Time)
  | oid (id : ObjectID)
  | int (n : Int)
  | null
deriving DecidableEq, Repr

/-- Go map from strings to empty-interface values (`bson.M`), as an association list read by first match. -/
abbrev M := List (String × Value)

/-- Go `m[key]` with the comma-ok form. -/
def M.get : M → String → Option Value
  | [], _ => none
  | (k, v) :: rest, key => if k = key then some v else M.get rest key

/-- Go `m[key] = v`. -/
def M.set : M → String → Value → M
  | [], key, v => [(key, v)]
  | (k, x) :: rest, key, v => if k = key then (k, v) :: rest else (k, x) :: M.set rest key v

/-- Stored form of a value: a `time.Time` is kept as a BSON date, in whole milliseconds. -/
def marshal : Value → Value
  | .time t => .time (t / 1000000 * 1000000)
  | v => v

end Bson

namespace Mongo

open Bson

/-- Modelled from the spec: the MongoDB collection behind the repository and its driver
are not part of the sources. A collection is the list of its documents; `fault`, when
set, is the error with which the driver answers every call (time-out, unreachable
server), the spec's "collaborator failure, including timeout". -/
structure Collection where
  docs : List M
  fault : Option StoreError
deriving DecidableEq, Repr

/-- Modelled from the spec: `findByEmail(email) -> identity | NotFound`, as the driver call
`FindOne` with the filter `key: v`: the first document whose field `key` holds `v`. -/
def FindOne (c : Collection) (key : String) (v : Value) : Except StoreError M :=
  match c.fault with
  | some e => .error e
  | none =>
    match c.docs.find? (fun d => decide (M.get d key = some (marshal v))) with
    | some d => .ok d
    | none => .error .noDocuments

/-- Modelled from the spec: `insert(identity)`, as the driver call `InsertOne(ctx, doc)`;
the sources create no unique index, so no duplicate is refused. -/
def InsertOne (c : Collection) (doc : M) : Option StoreError × Collection :=
  match c.fault with
  | some e => (some e, c)
  | none => (none, { c with docs := c.docs ++ [doc] })

/-- Modelled from the spec: "partial update semantics; unspecified fields untouched", the
update operator `$set`: every field listed in `updates` is set, in its stored form,
and no other field of the document is touched. -/
def applySet (doc : M) (updates : M) : M :=
  updates.foldr (fun kv d => M.set d kv.1 (marshal kv.2)) doc

/-- Replace by `f d` the first document `d` that satisfies `p`. -/
def updateFirst (p : M → Bool) (f : M → M) : List M → List M
  | [] => []
  | d :: rest => if p d then f d :: rest else d :: updateFirst p f rest

/-- Modelled from the spec: `update(identifier, fieldMap) -> error | nil`, as the driver call
`UpdateOne` with the filter `key: v` and the update `$set: updates`: the first document whose
field `key` holds `v` is updated; no matching document is not an error. -/
def UpdateOne (c : Collection) (key : String) (v : Value) (updates : M) :
    Option StoreError × Collection :=
  match c.fault with
  | some e => (some e, c)
  | none =>
    let hit := fun d => decide (M.get d key = some (marshal v))
    (none, { c with docs := updateFirst hit (fun d => applySet d updates) c.docs })

/-- Decoding of a string field; an absent field leaves the zero value. -/
def getStr (d : M) (key : String) : Except StoreError String :=
  match M.get d key with
  | none => .ok ""
  | some (.str s) => .ok s
  | some _ => .error (.decode key)

/-- Decoding of a boolean field; an absent field leaves the zero value. -/
def getBool (d : M) (key : String) : Except StoreError Bool :=
  match M.get d key with
  | none => .ok false
  | some (.bool b) => .ok b
  | some _ => .error (.decode key)

/-- Decoding of a date field; an absent field leaves the zero value (here the epoch). -/
def getTime (d : M) (key : String) : Except StoreError Time :=
  match M.get d key with
  | none => .ok 0
  | some (.time t) => .ok t
  | some _ => .error (.decode key)

/-- Decoding of an optional date field (`*time.Time`). -/
def getOptTime (d : M) (key : String) : Except StoreError (Option Time) :=
  match M.get d key with
  | none => .ok none
  | some .null => .ok none
  | some (.time t) => .ok (some t)
  | some _ => .error (.decode key)

/-- Decoding of the identifier field. -/
def getOid (d : M) (key : String) : Except StoreError ObjectID :=
  match M.get d key with
  | none => .ok NilObjectID
  | some (.oid i) => .ok i
  | some _ => .error (.decode key)

/-- The driver call `Decode(&user)` for `models.User`, following the `bson` tags. -/
def decodeUser (d : M) : Except StoreError Models.User := do
  let id ← getOid d "_id"
  let email ← getStr d "email"
  let password ← getStr d "password"
  let firstName ← getStr d "first_name"
  let lastName ← getStr d "last_name"
  let phone ← getStr d "phone_number"
  let dob ← getOptTime d "date_of_birth"
  let active ← getBool d "is_active"
  let created ← getTime d "created_at"
  let updated ← getTime d "updated_at"
  pure { ID := id, Email := email, Password := password, FirstName := firstName,
         LastName := lastName, PhoneNumber := phone, DateOfBirth := dob,
         IsActive := active, CreatedAt := created, UpdatedAt := updated }

/-- The document the driver stores for a `models.User`, following the `bson` tags
(`omitempty` on `_id` and `date_of_birth`). -/
def encodeUser (u : Models.User) : M :=
  (if u.ID = NilObjectID then [] else [("_id", Value.oid u.ID)]) ++
  [("email", .str u.Email), ("password", .str u.Password),
   ("first_name", .str u.FirstName), ("last_name", .str u.LastName),
   ("phone_number", .str u.PhoneNumber)] ++
  (match u.DateOfBirth with
   | none => []
   | some t => [("date_of_birth", marshal (.time t))]) ++
  [("is_active", .bool u.IsActive), ("created_at", marshal (.time u.CreatedAt)),
   ("updated_at", marshal (.time u.UpdatedAt))]

end Mongo

/-! ## `repository/user_repository.go` -/

namespace Repository

open Bson Mongo Models

/-- Go `UserRepository.CreateUser`. `newID` is the value of `primitive.NewObjectID()`,
`t₁` and `t₂` the two clock readings. The struct behind the pointer is returned next to
the error, since the method writes to it. -/
def CreateUser (newID : ObjectID) (t₁ t₂ : Time) (user : User) (c : Collection) :
    (Option Err × User) × Collection :=
  let user := { user with ID := newID }
  let user := { user with CreatedAt := t₁ }
  let user := { user with UpdatedAt := t₂ }
  let user := { user with IsActive := true }
  let r := InsertOne c (encodeUser user)
  ((r.1.map Err.store, user), r.2)

/-- Go `UserRepository.GetUserByEmail`. -/
def GetUserByEmail (email : String) (c : Collection) : Except Err User :=
  match (FindOne c "email" (.str email)).bind decodeUser with
  | .error e => .error (.store e)
  | .ok user => .ok user

/-- Go `UserRepository.GetUserByID`. -/
def GetUserByID (id : ObjectID) (c : Collection) : Except Err User :=
  match (FindOne c "_id" (.oid id)).bind decodeUser with
  | .error e => .error (.store e)
  | .ok user => .ok user

/-- Go `UserRepository.UpdateUser`; `now` is its clock reading. -/
def UpdateUser (now : Time) (id : ObjectID) (updates : M) (c : Collection) :
    Option Err × Collection :=
  let updates := M.set updates "updated_at" (.time now)
  let r := UpdateOne c "_id" (.oid id) updates
  (r.1.map Err.store, r.2)

end Repository

/-! ## The token library -/

namespace Jwt

/-- Hash functions of the signing methods. -/
inductive Hash where
  | SHA256
  | SHA384
  | SHA512
deriving DecidableEq, Repr

/-- Signing methods registered by the library, by their Go type. -/
inductive SigningMethod where
  /-- Go `*jwt.SigningMethodHMAC`. -/
  | HMAC (h : Hash)
  /-- Go `*jwt.SigningMethodRSA`. -/
  | RSA (h : Hash)
  /-- Go `*jwt.SigningMethodRSAPSS`. -/
  | RSAPSS (h : Hash)
  /-- Go `*jwt.SigningMethodECDSA`. -/
  | ECDSA (h : Hash)
  /-- Go `*jwt.SigningMethodEd25519`. -/
  | Ed25519
  /-- The method of unsecured tokens, `alg` = `none`. -/
  | unsecured
deriving DecidableEq, Repr

/-- Go `jwt.SigningMethodHS256`. -/
def SigningMethodHS256 : SigningMethod := .HMAC .SHA256

/-- Go `SigningMethod.Alg`: the name written in the header of a token. -/
def SigningMethod.Alg : SigningMethod → String
  | .HMAC .SHA256 => "HS256"
  | .HMAC .SHA384 => "HS384"
  | .HMAC .SHA512 => "HS512"
  | .RSA .SHA256 => "RS256"
  | .RSA .SHA384 => "RS384"
  | .RSA .SHA512 => "RS512"
  | .RSAPSS .SHA256 => "PS256"
  | .RSAPSS .SHA384 => "PS384"
  | .RSAPSS .SHA512 => "PS512"
  | .ECDSA .SHA256 => "ES256"
  | .ECDSA .SHA384 => "ES384"
  | .ECDSA .SHA512 => "ES512"
  | .Ed25519 => "EdDSA"
  | .unsecured => "none"

/-- Modelled from the spec: the library function `jwt.GetSigningMethod` is not in the
sources. The registered method of a header name, if any. -/
def GetSigningMethod (alg : String) : Option SigningMethod :=
  if alg = "HS256" then some (.HMAC .SHA256)
  else if alg = "HS384" then some (.HMAC .SHA384)
  else if alg = "HS512" then some (.HMAC .SHA512)
  else if alg = "RS256" then some (.RSA .SHA256)
  else if alg = "RS384" then some (.RSA .SHA384)
  else if alg = "RS512" then some (.RSA .SHA512)
  else if alg = "PS256" then some (.RSAPSS .SHA256)
  else if alg = "PS384" then some (.RSAPSS .SHA384)
  else if alg = "PS512" then some (.RSAPSS .SHA512)
  else if alg = "ES256" then some (.ECDSA .SHA256)
  else if alg = "ES384" then some (.ECDSA .SHA384)
  else if alg = "ES512" then some (.ECDSA .SHA512)
  else if alg = "EdDSA" then some .Ed25519
  else if alg = "none" then some .unsecured
  else none

/-- Whether a method is of Go type `*jwt.SigningMethodHMAC`. -/
def SigningMethod.isHMAC : SigningMethod → Bool
  | .HMAC _ => true
  | _ => false

/-- Go `jwt.NumericDate`: a date of a token, in whole seconds since the Unix epoch
(the library keeps dates to `jwt.TimePrecision`, one second). -/
structure NumericDate where
  seconds : Nat
deriving DecidableEq, Repr

/-- Modelled from the spec: the library function `jwt.NewNumericDate` is not in the
sources. The instant truncated to the second. -/
def NewNumericDate (t : Time) : NumericDate := ⟨t / second⟩

/-- The instant of a date (the embedded `time.Time` of a `jwt.NumericDate`). -/
def NumericDate.Time (d : NumericDate) : Time := d.seconds * second

/-- Go `jwt.RegisteredClaims`. -/
structure RegisteredClaims where
  Issuer : String
  Subject : String
  Audience : List String
  ExpiresAt : Option NumericDate
  NotBefore : Option NumericDate
  IssuedAt : Option NumericDate
  ID : String
deriving DecidableEq, Repr

/-- Signatures: byte strings. -/
abbrev Signature := List Nat

/-- The three decoded segments of a compact token: the text that is signed (the first
two segments as they stand in the token), the `alg` entry of the header when it is a
string, the claims decoded from the second segment, and the signature. -/
structure Segments (C : Type) where
  signingString : String
  alg : Option String
  claims : C
  signature : Signature

/-- Modelled from the spec: the token library is not part of the sources. Its
serialisation ("a compact, URL-safe, self-describing signed string") and its
cryptography are kept abstract: `Tok` is the type of token strings and `C` the type of
claims.

* `signingString alg c` is the text `base64url(header) . base64url(claims)` of a token
  with header `alg` and claims `c`;
* `compact alg c sig` is the token string of header `alg`, claims `c` and signature
  `sig`: `signingString alg c`, a dot, and the encoded signature;
* `split` is the parsing of a token string into its segments, `none` when the string
  is not of three segments or a segment does not decode;
* `split_compact`: parsing a string built by `compact` gives back what it was built
  from;
* `hmac h key s` is the HMAC of `s` under `key` with hash `h`;
* `verifyOther` and `signOther` are the methods that are not HMAC, left unspecified. -/
structure Lib (Tok C : Type) where
  signingString : String → C → String
  compact : String → C → Signature → Tok
  split : Tok → Option (Segments C)
  split_compact : ∀ (alg : String) (c : C) (sig : Signature),
    split (compact alg c sig) = some ⟨signingString alg c, some alg, c, sig⟩
  hmac : Hash → String → String → Signature
  verifyOther : SigningMethod → String → Signature → String → Bool
  signOther : SigningMethod → String → String → Except JwtError Signature

/-- Go `jwt.Token`, after parsing. -/
structure Token (C : Type) where
  Method : SigningMethod
  Claims : C
  Signature : Signature
  Valid : Bool

variable {Tok C : Type}

/-- Modelled from the spec: "signs with a symmetric HMAC-class algorithm over the signing
secret"; the library method `SigningMethod.Sign`, with a key of type `[]byte`, is not in
the sources. -/
def Sign (lib : Lib Tok C) (m : SigningMethod) (signingString key : String) :
    Except JwtError Signature :=
  match m with
  | .HMAC h => .ok (lib.hmac h key signingString)
  | other => lib.signOther other signingString key

/-- Modelled from the spec: "recompute and compare the signature against the configured
secret"; the library method `SigningMethod.Verify`, with a key of type `[]byte`, is not
in the sources. The value `true` stands for a nil error. -/
def Verify (lib : Lib Tok C) (m : SigningMethod) (signingString : String) (sig : Signature)
    (key : String) : Bool :=
  match m with
  | .HMAC h => decide (sig = lib.hmac h key signingString)
  | other => lib.verifyOther other signingString sig key

/-- Modelled from the spec: `issue` gives "a compact, URL-safe, self-describing signed
string"; the library calls `jwt.NewWithClaims(method, claims)` and
`token.SignedString(key)` are not in the sources. -/
def SignedString (lib : Lib Tok C) (m : SigningMethod) (claims : C) (key : String) :
    Except JwtError Tok :=
  let sstr := lib.signingString m.Alg claims
  match Sign lib m sstr key with
  | .error e => .error e
  | .ok sig => .ok (lib.compact m.Alg claims sig)

/-- Modelled from the spec: "parse structure; fail with `MALFORMED` if the encoding is
invalid"; the library method `Parser.ParseUnverified` is not in the sources. The token
without its signature checked, with the text that was signed and the decoded signature;
a header that names no registered method is refused here. -/
def ParseUnverified (lib : Lib Tok C) (tokenString : Tok) :
    Except JwtError (Token C × String × Signature) :=
  match lib.split tokenString with
  | none => .error .malformed
  | some p =>
    match p.alg with
    | some method =>
      match GetSigningMethod method with
      | none => .error (.unverifiable "signing method (alg) is unavailable" none)
      | some m => .ok (⟨m, p.claims, [], false⟩, p.signingString, p.signature)
    | none => .error (.unverifiable "signing method (alg) is unspecified" none)

/-- Modelled from the spec: "a token validated after its `expires_at` has elapsed fails
with `EXPIRED`"; the check `verifyExpiresAt` of the validator of the library is not in
the sources. It fails unless `now` is before `exp`; at the very instant `exp`, which the
window `[not_before, expires_at]` of the spec includes, the comparison of the library
(`now.Before(exp)`) is followed, and no statement below depends on that instant. -/
def verifyExpiresAt (rc : RegisteredClaims) (now : Time) : Option ClaimError :=
  match rc.ExpiresAt with
  | none => none
  | some exp => if now < exp.Time then none else some .expired

/-- Modelled from the spec: "a token used before its `not_before` fails with
`NOT_YET_VALID`"; the check `verifyNotBefore` of the validator of the library is not in
the sources. It fails when `now` is before `nbf`. -/
def verifyNotBefore (rc : RegisteredClaims) (now : Time) : Option ClaimError :=
  match rc.NotBefore with
  | none => none
  | some nbf => if now < nbf.Time then some .notValidYet else none

/-- Modelled from the spec: "check `now` is within `[not_before, expires_at]`; fail with
`EXPIRED` or `NOT_YET_VALID` outside that window"; the method `Validator.Validate` of the
library is not in the sources. The default validator (no leeway, no check of `iat`, no
expected audience, issuer or subject): the list of failed checks. -/
def Validate (rc : RegisteredClaims) (now : Time) : List ClaimError :=
  (verifyExpiresAt rc now).toList ++ (verifyNotBefore rc now).toList

/-- Modelled from the spec: the steps 1 to 5 of `validate`; the library function
`jwt.ParseWithClaims` is not in the sources. The default parser: parse, ask the key
function for the key, verify the signature, validate the claims. `reg` reads the registered claims
of the claims type, `keyFunc` is the key function of the caller, `now` the reading of the
clock by the validator. The library returns the token next to an error; the caller of
this development drops it, so only the error is kept. -/
def ParseWithClaims (lib : Lib Tok C) (reg : C → RegisteredClaims)
    (keyFunc : Token C → Except String String) (now : Time) (tokenString : Tok) :
    Except JwtError (Token C) :=
  match ParseUnverified lib tokenString with
  | .error e => .error e
  | .ok (token, sstr, sig) =>
    match keyFunc token with
    | .error cause => .error (.unverifiable "error while executing keyfunc" (some cause))
    | .ok key =>
      if Verify lib token.Method sstr sig key then
        match Validate (reg token.Claims) now with
        | [] => .ok { token with Signature := sig, Valid := true }
        | errs => .error (.invalidClaims errs)
      else .error .signatureInvalid

end Jwt

/-! ## `services/user_service.go` -/

namespace Services

open Bson Models Jwt

/-- Go interface `services.UserRepository`, over a store with states of type `σ`.
The two lookups read the state; `CreateUser` and `UpdateUser` return the new state.
`CreateUser` also returns the struct behind its pointer argument. -/
structure UserRepository (σ : Type) where
  CreateUser : User → σ → (Option Err × User) × σ
  GetUserByEmail : String → σ → Except Err User
  GetUserByID : ObjectID → σ → Except Err User
  UpdateUser : ObjectID → M → σ → Option Err × σ

/-- Go `services.JWTClaims`. -/
structure JWTClaims where
  UserID : String
  Email : String
  RegisteredClaims : RegisteredClaims
deriving DecidableEq, Repr

/-- The signing secret both token functions compute from the value `env` of the
environment variable `JWT_SECRET`. -/
def jwtSecret (env : String) : String :=
  if env = "" then "your-super-secret-jwt-key-change-in-production" else env

/-- The claims `GenerateJWTToken` builds (lines 47 to 61); `t₁`, `t₂`, `t₃` are its three
readings of the clock, in the order of the source: for the expiration time, for
`IssuedAt` and for `NotBefore`. -/
def GenerateJWTToken.claims (user : User) (t₁ t₂ t₃ : Time) : JWTClaims :=
  let expirationTime := t₁ + 24 * hour
  { UserID := user.ID.Hex
    Email := user.Email
    RegisteredClaims :=
      { ExpiresAt := some (NewNumericDate expirationTime)
        IssuedAt := some (NewNumericDate t₂)
        NotBefore := some (NewNumericDate t₃)
        Issuer := "movie-ticket-booking-system"
        Subject := user.ID.Hex
        Audience := []
        ID := "" } }

variable {Tok σ : Type}

/-- Go `UserService.GenerateJWTToken`. -/
def GenerateJWTToken (lib : Lib Tok JWTClaims) (env : String) (user : User)
    (t₁ t₂ t₃ : Time) : Except Err Tok :=
  let jwtSecret := jwtSecret env
  let claims := GenerateJWTToken.claims user t₁ t₂ t₃
  match SignedString lib SigningMethodHS256 claims jwtSecret with
  | .error e => .error (.jwt e)
  | .ok tokenString => .ok tokenString

/-- The key function `ValidateJWTToken` hands to the parser (lines 83 to 89). -/
def ValidateJWTToken.keyFunc (jwtSecret : String) (token : Token JWTClaims) :
    Except String String :=
  if !token.Method.isHMAC then .error "unexpected signing method"
  else .ok jwtSecret

/-- Go `UserService.ValidateJWTToken`; `now` is the clock reading of the validator. -/
def ValidateJWTToken (lib : Lib Tok JWTClaims) (env : String) (now : Time)
    (tokenString : Tok) : Except Err JWTClaims :=
  let jwtSecret := jwtSecret env
  match ParseWithClaims lib JWTClaims.RegisteredClaims (ValidateJWTToken.keyFunc jwtSecret)
      now tokenString with
  | .error e => .error (.jwt e)
  | .ok token =>
    if token.Valid then .ok token.Claims
    else .error (.text "invalid token")

/-- Go `UserService.verifyPassword`. -/
def verifyPassword (_plainPassword _hashedPassword : String) : Bool :=
  true

/-- Go `UserService.hashPassword`. -/
def hashPassword (password : String) : String :=
  password

/-- Go `UserService.AuthenticateUser`; `t₁`, `t₂`, `t₃` are the clock readings of the
call of `GenerateJWTToken`. -/
def AuthenticateUser (lib : Lib Tok JWTClaims) (repo : UserRepository σ) (env : String)
    (t₁ t₂ t₃ : Time) (email password : String) (s : σ) :
    Except Err (LoginResponse Tok) :=
  match repo.GetUserByEmail email s with
  | .error _ => .error (.text "invalid credentials")
  | .ok user =>
    if !verifyPassword password user.Password then .error (.text "invalid credentials")
    else if !user.IsActive then .error (.text "user account is deactivated")
    else
      match GenerateJWTToken lib env user t₁ t₂ t₃ with
      | .error _ => .error (.text "failed to generate token")
      | .ok token => .ok { Token := token, User := user }

/-- Go `UserService.RegisterUser`; `t₁` and `t₂` are its two clock readings. The result is
the returned pair together with the state of the store after the call. -/
def RegisterUser (repo : UserRepository σ) (t₁ t₂ : Time) (req : RegisterRequest) (s : σ) :
    Except Err User × σ :=
  match repo.GetUserByEmail req.Email s with
  | .ok _ => (.error (.text "user already exists with this email"), s)
  | .error _ =>
    let hashedPassword := hashPassword req.Password
    let user : User :=
      { ID := NilObjectID
        Email := req.Email
        Password := hashedPassword
        FirstName := req.FirstName
        LastName := req.LastName
        PhoneNumber := ""
        DateOfBirth := none
        IsActive := true
        CreatedAt := t₁
        UpdatedAt := t₂ }
    match repo.CreateUser user s with
    | ((some err, _), s₁) => (.error err, s₁)
    | ((none, user), s₁) => (.ok user, s₁)

/-- The map `UserService.UpdateUser` hands to the store (line 187). -/
def UpdateUser.updates (updates : M) (now : Time) : M :=
  M.set updates "updated_at" (.time now)

/-- Go `UserService.UpdateUser`; `now` is its clock reading. -/
def UpdateUser (repo : UserRepository σ) (now : Time) (id : ObjectID) (updates : M) (s : σ) :
    Option Err × σ :=
  repo.UpdateUser id (UpdateUser.updates updates now) s

/-- The repository of `repository/user_repository.go` as an implementation of the
interface: `newID` is the identifier drawn by `CreateUser`, `c₁`, `c₂` its clock
readings and `u` the clock reading of `UpdateUser`. -/
def mongoRepo (newID : ObjectID) (c₁ c₂ u : Time) : UserRepository Mongo.Collection :=
  { CreateUser := Repository.CreateUser newID c₁ c₂
    GetUserByEmail := Repository.GetUserByEmail
    GetUserByID := Repository.GetUserByID
    UpdateUser := Repository.UpdateUser u }

end Services

/-! ## Data of the examples -/

namespace Examples

open Bson Models Jwt Services

/-- An implementation of the interface of the token library without encoding and
without cryptography: a token string is kept as its segments, the signed text names the
header and the claims, and the keyed hash is the key followed by the text. -/
def plainLib : Lib (Segments JWTClaims) JWTClaims :=
  { signingString := fun alg c => alg ++ "." ++ c.UserID ++ "." ++ c.Email
    compact := fun alg c sig => ⟨alg ++ "." ++ c.UserID ++ "." ++ c.Email, some alg, c, sig⟩
    split := fun t => some t
    split_compact := fun _ _ _ => rfl
    hmac := fun _ key s => (key ++ s).toList.map Char.toNat
    verifyOther := fun _ _ _ _ => false
    signOther := fun _ _ _ => .error .invalidKeyType }

/-- The identifier the store draws in the examples. -/
def sampleID : ObjectID := ⟨1, by norm_num⟩

/-- The registration request of the scenario of the specification. -/
def sampleRequest : RegisterRequest :=
  { Email := "a@x.com", Password := "longenough1", FirstName := "A", LastName := "B" }

/-- A store with no document and no fault. -/
def emptyStore : Mongo.Collection := ⟨[], none⟩

/-- The repository of the examples: it draws `sampleID` and reads the clock at instant 0. -/
def sampleRepo : UserRepository Mongo.Collection := mongoRepo sampleID 0 0 0

/-- The store after the registration of `sampleRequest` in the empty store. -/
def registeredStore : Mongo.Collection := (RegisterUser sampleRepo 0 0 sampleRequest emptyStore).2

/-- The identity of `a@x.com` as the store of the examples returns it. -/
def sampleUser : User :=
  { ID := sampleID, Email := "a@x.com", Password := "longenough1", FirstName := "A",
    LastName := "B", PhoneNumber := "", DateOfBirth := none, IsActive := true,
    CreatedAt := 0, UpdatedAt := 0 }

/-- The store `registeredStore` after the identity has been deactivated. -/
def deactivatedStore : Mongo.Collection :=
  (sampleRepo.UpdateUser sampleID [("is_active", .bool false)] registeredStore).2

/-- A store whose every call times out. -/
def timedOutStore : Mongo.Collection := ⟨[], some .timeout⟩

end Examples

/-! ## Registration and login -/

namespace Services

open Bson Models Jwt Examples

variable {Tok σ : Type}

/-- C3: when the lookup by email returns an identity, `RegisterUser` fails with the error
"user already exists with this email", returns no identity and leaves the store as it
was, whatever the password and the names of the request; the same holds with any other
`CreateUser` in place of the one of the store, so that method is not called. -/
theorem RegisterUser_existing_email (repo : UserRepository σ) (t₁ t₂ : Time)
    (email password firstName lastName : String) (s : σ) (existing : User)
    (h : repo.GetUserByEmail email s = .ok existing) :
    RegisterUser repo t₁ t₂ ⟨email, password, firstName, lastName⟩ s
        = (.error (.text "user already exists with this email"), s) ∧
      ∀ create : User → σ → (Option Err × User) × σ,
        RegisterUser { repo with CreateUser := create } t₁ t₂
            ⟨email, password, firstName, lastName⟩ s
          = (.error (.text "user already exists with this email"), s) := by
  constructor
  · simp only [RegisterUser, h]
  · intro create
    simp only [RegisterUser, h]

/-- Witness of C3: a second registration of `a@x.com`, with another password and other
names, in the store that already holds this identity. -/
theorem RegisterUser_existing_email_witness :
    sampleRepo.GetUserByEmail "a@x.com" registeredStore = .ok sampleUser ∧
      RegisterUser sampleRepo 7 8 ⟨"a@x.com", "another-password", "C", "D"⟩ registeredStore
        = (.error (.text "user already exists with this email"), registeredStore) :=
  ⟨rfl, (RegisterUser_existing_email sampleRepo 7 8 "a@x.com" "another-password" "C" "D"
    registeredStore sampleUser rfl).1⟩

/-- C5: when the store returns for the email an identity whose active flag is false,
`AuthenticateUser` fails with the error "user account is deactivated", for every
password; this error is not the error "invalid credentials", and no token is returned. -/
theorem AuthenticateUser_deactivated (lib : Lib Tok JWTClaims) (repo : UserRepository σ)
    (env : String) (t₁ t₂ t₃ : Time) (email password : String) (s : σ) (user : User)
    (h : repo.GetUserByEmail email s = .ok user) (hactive : user.IsActive = false) :
    AuthenticateUser lib repo env t₁ t₂ t₃ email password s
        = .error (.text "user account is deactivated") ∧
      Err.text "user account is deactivated" ≠ Err.text "invalid credentials" := by
  constructor
  · simp [AuthenticateUser, h, hactive, verifyPassword]
  · decide

/-- Witness of C5: login of `a@x.com` with its password after the identity has been
deactivated. -/
theorem AuthenticateUser_deactivated_witness :
    sampleRepo.GetUserByEmail "a@x.com" deactivatedStore
        = .ok { sampleUser with IsActive := false } ∧
      AuthenticateUser plainLib sampleRepo "" 0 0 0 "a@x.com" "longenough1" deactivatedStore
        = .error (.text "user account is deactivated") :=
  ⟨rfl, (AuthenticateUser_deactivated plainLib sampleRepo "" 0 0 0 "a@x.com" "longenough1"
    deactivatedStore { sampleUser with IsActive := false } rfl rfl).1⟩

/-- C10, as the code has it: when the lookup by email fails, for whatever reason (no such
identity, time-out, unreachable store), `AuthenticateUser` fails with the error
"invalid credentials" and returns no token. -/
theorem AuthenticateUser_lookup_failure (lib : Lib Tok JWTClaims) (repo : UserRepository σ)
    (env : String) (t₁ t₂ t₃ : Time) (email password : String) (s : σ) (e : Err)
    (h : repo.GetUserByEmail email s = .error e) :
    AuthenticateUser lib repo env t₁ t₂ t₃ email password s
      = .error (.text "invalid credentials") := by
  simp only [AuthenticateUser, h]

/-- Witness of the amended C10: login against a store whose calls time out. -/
theorem AuthenticateUser_lookup_failure_witness :
    sampleRepo.GetUserByEmail "a@x.com" timedOutStore = .error (.store .timeout) ∧
      AuthenticateUser plainLib sampleRepo "" 0 0 0 "a@x.com" "longenough1" timedOutStore
        = .error (.text "invalid credentials") :=
  ⟨rfl, AuthenticateUser_lookup_failure plainLib sampleRepo "" 0 0 0 "a@x.com" "longenough1"
    timedOutStore (.store .timeout) rfl⟩

/-- Counterexample to C10: the lookup of the repository fails with the time-out of the
store, and `AuthenticateUser` answers with the error "invalid credentials", which is
no storage error. -/
theorem AuthenticateUser_timeout_counterexample :
    Repository.GetUserByEmail "a@x.com" timedOutStore = .error (.store .timeout) ∧
      AuthenticateUser plainLib sampleRepo "" 0 0 0 "a@x.com" "longenough1" timedOutStore
        = .error (.text "invalid credentials") ∧
      ¬ ∃ e : StoreError,
        AuthenticateUser plainLib sampleRepo "" 0 0 0 "a@x.com" "longenough1" timedOutStore
          = .error (.store e) := by
  refine ⟨rfl, rfl, ?_⟩
  rintro ⟨e, he⟩
  have h : AuthenticateUser plainLib sampleRepo "" 0 0 0 "a@x.com" "longenough1" timedOutStore
      = .error (.text "invalid credentials") := rfl
  rw [h] at he
  cases he

/-- C1 on the code: in the store where `a@x.com` was registered with the password
`longenough1`, the stored credential is `longenough1`, and the login of `a@x.com` with
the password `wrong` succeeds and returns a token, for every token library. -/
theorem AuthenticateUser_wrong_password_accepted (lib : Lib Tok JWTClaims) :
    sampleRepo.GetUserByEmail "a@x.com" registeredStore = .ok sampleUser ∧
      sampleUser.Password = "longenough1" ∧
      ∃ token : Tok,
        AuthenticateUser lib sampleRepo "" 0 0 0 "a@x.com" "wrong" registeredStore
          = .ok ⟨token, sampleUser⟩ :=
  ⟨rfl, rfl, _, rfl⟩

/-- C2 on the code: the registration of `sampleRequest`, whose password is `longenough1`,
in the empty store returns an identity whose credential is the password itself, and
the document handed to the store holds the password itself. -/
theorem RegisterUser_stores_plaintext :
    (RegisterUser sampleRepo 0 0 sampleRequest emptyStore).1 = .ok sampleUser ∧
      sampleUser.Password = sampleRequest.Password ∧
      ∃ doc : M, (RegisterUser sampleRepo 0 0 sampleRequest emptyStore).2 = ⟨[doc], none⟩ ∧
        M.get doc "password" = some (.str sampleRequest.Password) :=
  ⟨rfl, rfl, _, rfl, rfl⟩

end Services

/-! ## Tokens -/

namespace Services

open Bson Models Jwt Examples

variable {Tok σ : Type}

theorem GenerateJWTToken_eq (lib : Lib Tok JWTClaims) (env : String) (user : User)
    (t₁ t₂ t₃ : Time) :
    GenerateJWTToken lib env user t₁ t₂ t₃
      = .ok (lib.compact "HS256" (GenerateJWTToken.claims user t₁ t₂ t₃)
          (lib.hmac .SHA256 (jwtSecret env)
            (lib.signingString "HS256" (GenerateJWTToken.claims user t₁ t₂ t₃)))) := rfl

theorem ValidateJWTToken_compact_HS256 (lib : Lib Tok JWTClaims) (env : String) (now : Time)
    (c : JWTClaims) (sig : Signature) :
    ValidateJWTToken lib env now (lib.compact "HS256" c sig)
      = if sig = lib.hmac .SHA256 (jwtSecret env) (lib.signingString "HS256" c) then
          if Validate c.RegisteredClaims now = [] then .ok c
          else .error (.jwt (.invalidClaims (Validate c.RegisteredClaims now)))
        else .error (.jwt .signatureInvalid) := by
  have hm : GetSigningMethod "HS256" = some (.HMAC .SHA256) := by decide
  simp only [ValidateJWTToken, ParseWithClaims, ParseUnverified, lib.split_compact, hm,
    ValidateJWTToken.keyFunc, SigningMethod.isHMAC, Verify]
  by_cases hs : sig = lib.hmac .SHA256 (jwtSecret env) (lib.signingString "HS256" c)
  · simp only [hs, decide_True, if_true, Bool.not_true, Bool.false_eq_true, if_false]
    cases hv : Validate c.RegisteredClaims now <;> simp
  · simp [hs]

theorem Validate_eq_nil (rc : RegisteredClaims) (now : Nat) (exp nbf : NumericDate)
    (hexp : rc.ExpiresAt = some exp) (hnbf : rc.NotBefore = some nbf)
    (h₁ : now < exp.seconds * second) (h₂ : nbf.seconds * second ≤ now) :
    Validate rc now = [] := by
  have h₂ : ¬ now < nbf.seconds * second := Nat.not_lt.mpr h₂
  simp [Validate, verifyExpiresAt, verifyNotBefore, hexp, hnbf, NumericDate.Time, h₁, h₂]

theorem expired_mem_Validate (rc : RegisteredClaims) (now : Nat) (exp : NumericDate)
    (hexp : rc.ExpiresAt = some exp) (h : exp.seconds * second ≤ now) :
    ClaimError.expired ∈ Validate rc now := by
  have h : ¬ now < exp.seconds * second := Nat.not_lt.mpr h
  simp [Validate, verifyExpiresAt, hexp, NumericDate.Time, h]

theorem notValidYet_mem_Validate (rc : RegisteredClaims) (now : Nat) (nbf : NumericDate)
    (hnbf : rc.NotBefore = some nbf) (h : now < nbf.seconds * second) :
    ClaimError.notValidYet ∈ Validate rc now := by
  simp [Validate, verifyNotBefore, hnbf, NumericDate.Time, h]

theorem NewNumericDate_add_day (t : Nat) :
    NewNumericDate (t + 24 * hour) = ⟨t / second + 86400⟩ := by
  show NumericDate.mk ((t + 24 * (3600 * 1000000000)) / 1000000000) = ⟨t / 1000000000 + 86400⟩
  congr 1
  omega

theorem claims_ExpiresAt (user : User) (t₁ t₂ t₃ : Nat) :
    (GenerateJWTToken.claims user t₁ t₂ t₃).RegisteredClaims.ExpiresAt
      = some ⟨t₁ / second + 86400⟩ := by
  show some (NewNumericDate (t₁ + 24 * hour)) = _
  rw [NewNumericDate_add_day]

theorem claims_IssuedAt (user : User) (t₁ t₂ t₃ : Nat) :
    (GenerateJWTToken.claims user t₁ t₂ t₃).RegisteredClaims.IssuedAt
      = some ⟨t₂ / second⟩ := rfl

theorem claims_NotBefore (user : User) (t₁ t₂ t₃ : Nat) :
    (GenerateJWTToken.claims user t₁ t₂ t₃).RegisteredClaims.NotBefore
      = some ⟨t₃ / second⟩ := rfl

/-- Validation of a token of `GenerateJWTToken` whose claims fail a check of the validator:
an error in every case, and the error of the claims when the secrets agree. -/
theorem ValidateJWTToken_failed_check (lib : Lib Tok JWTClaims) (envG envV : String)
    (now : Nat) (c : JWTClaims) (ce : ClaimError) (h : ce ∈ Validate c.RegisteredClaims now) :
    ∃ e, ValidateJWTToken lib envV now (lib.compact "HS256" c
          (lib.hmac .SHA256 (jwtSecret envG) (lib.signingString "HS256" c))) = .error e ∧
      (jwtSecret envG = jwtSecret envV →
        ∃ errs, e = .jwt (.invalidClaims errs) ∧ ce ∈ errs) := by
  have hne : Validate c.RegisteredClaims now ≠ [] := List.ne_nil_of_mem h
  rw [ValidateJWTToken_compact_HS256]
  by_cases hs : lib.hmac .SHA256 (jwtSecret envG) (lib.signingString "HS256" c)
      = lib.hmac .SHA256 (jwtSecret envV) (lib.signingString "HS256" c)
  · rw [if_pos hs, if_neg hne]
    exact ⟨_, rfl, fun _ => ⟨_, rfl, h⟩⟩
  · rw [if_neg hs]
    refine ⟨_, rfl, fun heq => ?_⟩
    rw [heq] at hs
    exact absurd rfl hs

/-- C6, as the code has it: `GenerateJWTToken` signs, with HS256 and the configured
secret, claims whose subject and `user_id` are the hex form of the identifier, whose
email is the email of the identity, whose issuer is `movie-ticket-booking-system`, and
whose dates come from three readings of the clock, each kept in whole seconds:
`expires_at` is the first reading plus 24 hours, `issued_at` the second reading,
`not_before` the third. When the three readings fall in the same second, `not_before`
equals `issued_at` and `expires_at` is `issued_at` plus 24 hours. -/
theorem GenerateJWTToken_claims_fields (lib : Lib Tok JWTClaims) (env : String) (user : User)
    (t₁ t₂ t₃ : Nat) :
    GenerateJWTToken lib env user t₁ t₂ t₃
        = .ok (lib.compact "HS256" (GenerateJWTToken.claims user t₁ t₂ t₃)
            (lib.hmac .SHA256 (jwtSecret env)
              (lib.signingString "HS256" (GenerateJWTToken.claims user t₁ t₂ t₃)))) ∧
      (GenerateJWTToken.claims user t₁ t₂ t₃).UserID = user.ID.Hex ∧
      (GenerateJWTToken.claims user t₁ t₂ t₃).RegisteredClaims.Subject = user.ID.Hex ∧
      (GenerateJWTToken.claims user t₁ t₂ t₃).Email = user.Email ∧
      (GenerateJWTToken.claims user t₁ t₂ t₃).RegisteredClaims.Issuer
        = "movie-ticket-booking-system" ∧
      (GenerateJWTToken.claims user t₁ t₂ t₃).RegisteredClaims.ExpiresAt
        = some ⟨t₁ / second + 86400⟩ ∧
      (GenerateJWTToken.claims user t₁ t₂ t₃).RegisteredClaims.IssuedAt
        = some ⟨t₂ / second⟩ ∧
      (GenerateJWTToken.claims user t₁ t₂ t₃).RegisteredClaims.NotBefore
        = some ⟨t₃ / second⟩ ∧
      (t₁ / second = t₂ / second → t₂ / second = t₃ / second →
        (GenerateJWTToken.claims user t₁ t₂ t₃).RegisteredClaims.NotBefore
          = (GenerateJWTToken.claims user t₁ t₂ t₃).RegisteredClaims.IssuedAt ∧
        (GenerateJWTToken.claims user t₁ t₂ t₃).RegisteredClaims.ExpiresAt
          = some ⟨t₂ / second + 86400⟩) := by
  refine ⟨rfl, rfl, rfl, rfl, rfl, claims_ExpiresAt user t₁ t₂ t₃, rfl, rfl, ?_⟩
  intro h₁₂ h₂₃
  rw [claims_ExpiresAt, claims_IssuedAt, claims_NotBefore, h₁₂, h₂₃]
  exact ⟨rfl, rfl⟩

/-- Witness of the amended C6: the three readings are one instant, half a second after
the second 100. -/
theorem GenerateJWTToken_claims_fields_witness :
    (100500000000 / second = 100500000000 / second) ∧
      (GenerateJWTToken.claims sampleUser 100500000000 100500000000
          100500000000).RegisteredClaims.NotBefore
        = (GenerateJWTToken.claims sampleUser 100500000000 100500000000
          100500000000).RegisteredClaims.IssuedAt ∧
      (GenerateJWTToken.claims sampleUser 100500000000 100500000000
          100500000000).RegisteredClaims.ExpiresAt
        = some ⟨100500000000 / second + 86400⟩ :=
  ⟨rfl, (GenerateJWTToken_claims_fields plainLib "" sampleUser 100500000000 100500000000
    100500000000).2.2.2.2.2.2.2.2 rfl rfl⟩

/-- Counterexample to C6: the clock passes from second 0 to second 1 between the first and
the second reading. The token is issued at second 1 and expires at second 86400, so
`expires_at` is not `issued_at` plus 24 hours and no single time `now` gives the dates. -/
theorem GenerateJWTToken_claims_counterexample :
    (GenerateJWTToken.claims sampleUser 999999999 1000000000
          1000000000).RegisteredClaims.ExpiresAt = some ⟨86400⟩ ∧
      (GenerateJWTToken.claims sampleUser 999999999 1000000000
          1000000000).RegisteredClaims.IssuedAt = some ⟨1⟩ ∧
      ¬ ∃ now : Nat,
        (GenerateJWTToken.claims sampleUser 999999999 1000000000
              1000000000).RegisteredClaims.ExpiresAt
            = some (NewNumericDate (now + 24 * hour)) ∧
          (GenerateJWTToken.claims sampleUser 999999999 1000000000
              1000000000).RegisteredClaims.IssuedAt
            = some (NewNumericDate now) := by
  have hexp : (GenerateJWTToken.claims sampleUser 999999999 1000000000
      1000000000).RegisteredClaims.ExpiresAt = some ⟨86400⟩ := by
    rw [claims_ExpiresAt]
    simp [second]
  have hiat : (GenerateJWTToken.claims sampleUser 999999999 1000000000
      1000000000).RegisteredClaims.IssuedAt = some ⟨1⟩ := by
    rw [claims_IssuedAt]
    simp [second]
  refine ⟨hexp, hiat, ?_⟩
  rintro ⟨now, h₁, h₂⟩
  rw [hexp, NewNumericDate_add_day] at h₁
  rw [hiat] at h₂
  simp only [Option.some.injEq, NumericDate.mk.injEq, NewNumericDate] at h₁ h₂
  omega

/-- C4: with the same value of `JWT_SECRET` at both calls, and a validation that reads the
clock no earlier than the last reading of the issuance and at least one second before
24 hours have passed since its first reading, `ValidateJWTToken` applied to the string
returned by `GenerateJWTToken` succeeds, and the claims it returns have the hex form
of the identifier as subject and as `user_id`, and the email of the identity. -/
theorem ValidateJWTToken_GenerateJWTToken (lib : Lib Tok JWTClaims) (env : String)
    (user : User) (t₁ t₂ t₃ now : Nat) (hafter : t₃ ≤ now)
    (hsoon : now + second ≤ t₁ + 24 * hour) :
    ∃ (tokenString : Tok) (claims : JWTClaims),
      GenerateJWTToken lib env user t₁ t₂ t₃ = .ok tokenString ∧
      ValidateJWTToken lib env now tokenString = .ok claims ∧
      claims.RegisteredClaims.Subject = user.ID.Hex ∧
      claims.UserID = user.ID.Hex ∧
      claims.Email = user.Email := by
  refine ⟨_, GenerateJWTToken.claims user t₁ t₂ t₃, GenerateJWTToken_eq lib env user t₁ t₂ t₃,
    ?_, rfl, rfl, rfl⟩
  have hv : Validate (GenerateJWTToken.claims user t₁ t₂ t₃).RegisteredClaims now = [] := by
    apply Validate_eq_nil _ now _ _ (claims_ExpiresAt user t₁ t₂ t₃)
      (claims_NotBefore user t₁ t₂ t₃)
    · simp only [second, hour] at hsoon ⊢
      omega
    · simp only [second]
      omega
  rw [ValidateJWTToken_compact_HS256, if_pos rfl, if_pos hv]

/-- Witness of C4: a token issued at instant 5 and validated at instant 6, with the
development secret. -/
theorem ValidateJWTToken_GenerateJWTToken_witness :
    (5 : Nat) ≤ 6 ∧ 6 + second ≤ 5 + 24 * hour ∧
      ∃ (tokenString : Segments JWTClaims) (claims : JWTClaims),
        GenerateJWTToken plainLib "" sampleUser 5 5 5 = .ok tokenString ∧
        ValidateJWTToken plainLib "" 6 tokenString = .ok claims ∧
        claims.RegisteredClaims.Subject = sampleUser.ID.Hex ∧
        claims.UserID = sampleUser.ID.Hex ∧
        claims.Email = sampleUser.Email :=
  ⟨by decide, by simp [second, hour],
    ValidateJWTToken_GenerateJWTToken plainLib "" sampleUser 5 5 5 6 (by decide)
      (by simp [second, hour])⟩

/-- C7: for the token `GenerateJWTToken` returns, `ValidateJWTToken` called at a time
later than its `expires_at` returns an error and no claims, and so does a call at a
time earlier than its `not_before`; when the secret is the one of the issuance, the
error is the error of the claims with the check `expired`, respectively
`notValidYet`. -/
theorem ValidateJWTToken_outside_window (lib : Lib Tok JWTClaims) (envG envV : String)
    (user : User) (t₁ t₂ t₃ : Nat) :
    ∃ tokenString : Tok,
      GenerateJWTToken lib envG user t₁ t₂ t₃ = .ok tokenString ∧
      (∀ (now : Nat) (exp : NumericDate),
        (GenerateJWTToken.claims user t₁ t₂ t₃).RegisteredClaims.ExpiresAt = some exp →
        exp.seconds * second < now →
        ∃ e, ValidateJWTToken lib envV now tokenString = .error e ∧
          (jwtSecret envG = jwtSecret envV →
            ∃ errs, e = .jwt (.invalidClaims errs) ∧ ClaimError.expired ∈ errs)) ∧
      (∀ (now : Nat) (nbf : NumericDate),
        (GenerateJWTToken.claims user t₁ t₂ t₃).RegisteredClaims.NotBefore = some nbf →
        now < nbf.seconds * second →
        ∃ e, ValidateJWTToken lib envV now tokenString = .error e ∧
          (jwtSecret envG = jwtSecret envV →
            ∃ errs, e = .jwt (.invalidClaims errs) ∧ ClaimError.notValidYet ∈ errs)) := by
  refine ⟨_, GenerateJWTToken_eq lib envG user t₁ t₂ t₃, ?_, ?_⟩
  · intro now exp hexp hlate
    exact ValidateJWTToken_failed_check lib envG envV now _ _
      (expired_mem_Validate _ now exp hexp (Nat.le_of_lt hlate))
  · intro now nbf hnbf hearly
    exact ValidateJWTToken_failed_check lib envG envV now _ _
      (notValidYet_mem_Validate _ now nbf hnbf hearly)

/-- Witness of C7: the token issued at second 100 with the development secret expires at
second 86500; it is refused as expired one nanosecond later, and as not yet valid at
second 99. -/
theorem ValidateJWTToken_outside_window_witness :
    (GenerateJWTToken.claims sampleUser 100000000000 100000000000
          100000000000).RegisteredClaims.ExpiresAt = some ⟨86500⟩ ∧
      (GenerateJWTToken.claims sampleUser 100000000000 100000000000
          100000000000).RegisteredClaims.NotBefore = some ⟨100⟩ ∧
      86500 * second < 86500000000001 ∧ 99000000000 < 100 * second ∧
      ∃ tokenString : Segments JWTClaims,
        GenerateJWTToken plainLib "" sampleUser 100000000000 100000000000 100000000000
          = .ok tokenString ∧
        (∃ errs, ValidateJWTToken plainLib "" 86500000000001 tokenString
            = .error (.jwt (.invalidClaims errs)) ∧ ClaimError.expired ∈ errs) ∧
        (∃ errs, ValidateJWTToken plainLib "" 99000000000 tokenString
            = .error (.jwt (.invalidClaims errs)) ∧ ClaimError.notValidYet ∈ errs) := by
  have hexp : (GenerateJWTToken.claims sampleUser 100000000000 100000000000
      100000000000).RegisteredClaims.ExpiresAt = some ⟨86500⟩ := by
    rw [claims_ExpiresAt]
    simp [second]
  have hnbf : (GenerateJWTToken.claims sampleUser 100000000000 100000000000
      100000000000).RegisteredClaims.NotBefore = some ⟨100⟩ := by
    rw [claims_NotBefore]
    simp [second]
  have hlate : 86500 * second < 86500000000001 := by simp [second]
  have hearly : 99000000000 < 100 * second := by simp [second]
  obtain ⟨tok, hgen, hE, hN⟩ := ValidateJWTToken_outside_window plainLib "" "" sampleUser
    100000000000 100000000000 100000000000
  refine ⟨hexp, hnbf, hlate, hearly, tok, hgen, ?_, ?_⟩
  · obtain ⟨e, he, hkind⟩ := hE 86500000000001 ⟨86500⟩ hexp hlate
    obtain ⟨errs, rfl, hmem⟩ := hkind rfl
    exact ⟨errs, he, hmem⟩
  · obtain ⟨e, he, hkind⟩ := hN 99000000000 ⟨100⟩ hnbf hearly
    obtain ⟨errs, rfl, hmem⟩ := hkind rfl
    exact ⟨errs, he, hmem⟩

/-- C8: for a token string whose header does not name a registered method of the HMAC
family, `ValidateJWTToken` returns an error and no claims, whatever the claims, the
signature, the secret and the time; and the key function returns the secret only for
a token whose method is of the HMAC family. -/
theorem ValidateJWTToken_non_HMAC (lib : Lib Tok JWTClaims) (env : String) (now : Time)
    (tokenString : Tok) (p : Segments JWTClaims) (hsplit : lib.split tokenString = some p)
    (halg : ∀ (alg : String) (m : SigningMethod),
      p.alg = some alg → GetSigningMethod alg = some m → m.isHMAC = false) :
    (∃ e, ValidateJWTToken lib env now tokenString = .error e) ∧
      ∀ (secret key : String) (token : Token JWTClaims),
        ValidateJWTToken.keyFunc secret token = .ok key →
          token.Method.isHMAC = true ∧ key = secret := by
  constructor
  · cases ha : p.alg with
    | none =>
      simp only [ValidateJWTToken, ParseWithClaims, ParseUnverified, hsplit, ha]
      exact ⟨_, rfl⟩
    | some alg =>
      cases hm : GetSigningMethod alg with
      | none =>
        simp only [ValidateJWTToken, ParseWithClaims, ParseUnverified, hsplit, ha, hm]
        exact ⟨_, rfl⟩
      | some m =>
        have hno : m.isHMAC = false := halg alg m ha hm
        simp only [ValidateJWTToken, ParseWithClaims, ParseUnverified, hsplit, ha, hm,
          ValidateJWTToken.keyFunc, hno, Bool.not_false, if_true]
        exact ⟨_, rfl⟩
  · intro secret key token hkey
    unfold ValidateJWTToken.keyFunc at hkey
    cases hh : token.Method.isHMAC with
    | false => simp [hh] at hkey
    | true =>
      simp only [hh, Bool.not_true, Bool.false_eq_true, if_false, Except.ok.injEq] at hkey
      exact ⟨rfl, hkey.symm⟩

/-- Witness of C8: a token that names RS256 and carries the claims of `a@x.com`. -/
theorem ValidateJWTToken_non_HMAC_witness :
    ∃ e, ValidateJWTToken plainLib "" 5
        ⟨"x", some "RS256", GenerateJWTToken.claims sampleUser 0 0 0, []⟩ = .error e :=
  (ValidateJWTToken_non_HMAC plainLib "" 5
    ⟨"x", some "RS256", GenerateJWTToken.claims sampleUser 0 0 0, []⟩
    ⟨"x", some "RS256", GenerateJWTToken.claims sampleUser 0 0 0, []⟩ rfl
    (by
      intro alg m ha hm
      have halg : alg = "RS256" := (Option.some.inj ha).symm
      subst halg
      have hrs : GetSigningMethod "RS256" = some (.RSA .SHA256) := by decide
      rw [hrs] at hm
      cases hm
      rfl)).1

end Services

/-! ## Profile update -/

namespace Services

open Bson Models Jwt Mongo Examples

variable {σ : Type}

theorem M_get_set (m : M) (k : String) (v : Value) (key : String) :
    M.get (M.set m k v) key = if k = key then some v else M.get m key := by
  induction m with
  | nil => simp [M.set, M.get]
  | cons kv rest ih =>
    obtain ⟨k₀, v₀⟩ := kv
    by_cases h₀ : k₀ = k
    · subst h₀
      by_cases h₁ : k₀ = key <;> simp [M.set, M.get, h₁]
    · by_cases h₁ : k₀ = key
      · subst h₁
        have h₂ : ¬ k = k₀ := fun h => h₀ h.symm
        simp [M.set, M.get, h₀, h₂]
      · simp [M.set, M.get, h₀, h₁, ih]

theorem M_get_applySet (doc updates : M) (key : String) :
    M.get (applySet doc updates) key
      = match M.get updates key with
        | some v => some (marshal v)
        | none => M.get doc key := by
  induction updates with
  | nil => rfl
  | cons kv rest ih =>
    obtain ⟨k₀, v₀⟩ := kv
    show M.get (M.set (applySet doc rest) k₀ (marshal v₀)) key = _
    rw [M_get_set]
    by_cases h : k₀ = key
    · simp [M.get, h]
    · simp only [M.get, h, if_false]
      exact ih

theorem updateFirst_append (p : M → Bool) (f : M → M) (pre post : List M) (d : M)
    (hpre : ∀ x ∈ pre, p x = false) (hd : p d = true) :
    updateFirst p f (pre ++ d :: post) = pre ++ f d :: post := by
  induction pre with
  | nil => simp [updateFirst, hd]
  | cons x rest ih =>
    have hx : p x = false := hpre x (List.mem_cons_self x rest)
    have hrest : ∀ y ∈ rest, p y = false := fun y hy => hpre y (List.mem_cons_of_mem x hy)
    simp [updateFirst, hx, ih hrest]

/-- C9: `UserService.UpdateUser` hands to the store the identifier and a map that holds
`updated_at` with the clock reading of the service and, at every other key, what the map
of the caller holds there. With the repository of the sources over a store that sets
only the listed fields, the first document of the identifier is replaced by one in
which every field that the caller did not name, `updated_at` apart, is unchanged,
every field the caller named holds the stored form of the given value, and
`updated_at` holds the clock reading of the repository; no other document changes. -/
theorem UpdateUser_frame (now u : Time) (id newID : ObjectID) (c₁ c₂ : Time) (updates : M)
    (pre post : List M) (doc : M)
    (hpre : ∀ d ∈ pre, M.get d "_id" ≠ some (.oid id))
    (hdoc : M.get doc "_id" = some (.oid id)) :
    (∀ (repo : UserRepository σ) (s : σ),
        UpdateUser repo now id updates s
          = repo.UpdateUser id (UpdateUser.updates updates now) s) ∧
      (∀ key, M.get (UpdateUser.updates updates now) key
          = if key = "updated_at" then some (.time now) else M.get updates key) ∧
      ∃ doc₁ : M,
        UpdateUser (mongoRepo newID c₁ c₂ u) now id updates ⟨pre ++ doc :: post, none⟩
            = (none, ⟨pre ++ doc₁ :: post, none⟩) ∧
          (∀ key, key ≠ "updated_at" → M.get updates key = none →
            M.get doc₁ key = M.get doc key) ∧
          (∀ key v, key ≠ "updated_at" → M.get updates key = some v →
            M.get doc₁ key = some (marshal v)) ∧
          M.get doc₁ "updated_at" = some (marshal (.time u)) := by
  have hmap : ∀ (t : Time) (m : M) (key : String), M.get (M.set m "updated_at" (.time t)) key
      = if key = "updated_at" then some (.time t) else M.get m key := by
    intro t m key
    rw [M_get_set]
    by_cases h : key = "updated_at"
    · simp [h]
    · have h₂ : ¬ "updated_at" = key := fun e => h e.symm
      simp [h, h₂]
  refine ⟨fun _ _ => rfl, hmap now updates, ?_⟩
  refine ⟨applySet doc (M.set (UpdateUser.updates updates now) "updated_at" (.time u)),
    ?_, ?_, ?_, ?_⟩
  · have hhit : updateFirst (fun d => decide (M.get d "_id" = some (marshal (.oid id))))
        (fun d => applySet d (M.set (UpdateUser.updates updates now) "updated_at" (.time u)))
        (pre ++ doc :: post)
        = pre ++ applySet doc (M.set (UpdateUser.updates updates now) "updated_at" (.time u))
            :: post := by
      apply updateFirst_append
      · intro x hx
        exact decide_eq_false (hpre x hx)
      · exact decide_eq_true hdoc
    show ((none : Option StoreError).map Err.store, (⟨_, none⟩ : Collection)) = _
    rw [hhit]
    rfl
  · intro key hkey hnone
    rw [M_get_applySet, hmap, if_neg hkey, UpdateUser.updates, hmap, if_neg hkey, hnone]
  · intro key v hkey hsome
    rw [M_get_applySet, hmap, if_neg hkey, UpdateUser.updates, hmap, if_neg hkey, hsome]
  · rw [M_get_applySet, hmap, if_pos rfl]

/-- Witness of C9: the first name of `a@x.com` is set to `Z` at instant 7000000 of the
service and 9000000 of the repository; the phone number is unchanged. -/
theorem UpdateUser_frame_witness :
    M.get (encodeUser sampleUser) "_id" = some (.oid sampleID) ∧
      ∃ doc₁ : M,
        UpdateUser (mongoRepo sampleID 0 0 9000000) 7000000 sampleID [("first_name", .str "Z")]
            ⟨[] ++ encodeUser sampleUser :: [], none⟩
          = (none, ⟨[] ++ doc₁ :: [], none⟩) ∧
        M.get doc₁ "phone_number" = M.get (encodeUser sampleUser) "phone_number" ∧
        M.get doc₁ "first_name" = some (.str "Z") ∧
        M.get doc₁ "updated_at" = some (.time 9000000) := by
  refine ⟨by decide, ?_⟩
  obtain ⟨_, _, doc₁, hrun, hframe, hset, hupd⟩ :=
    @UpdateUser_frame Unit 7000000 9000000 sampleID sampleID 0 0
      [("first_name", .str "Z")] [] [] (encodeUser sampleUser)
      (fun d hd => absurd hd (List.not_mem_nil d)) (by decide)
  exact ⟨doc₁, hrun, hframe "phone_number" (by decide) (by decide),
    hset "first_name" (.str "Z") (by decide) (by decide), hupd⟩

end Services
